import Mathlib

/-!
# portable_concurrency: unique_function and latch

A shallow embedding of `portable_concurrency/bits/unique_function.h` and of
the counter of the class declared in `portable_concurrency/bits/latch.h`.

* Part 1 embeds the compile-time side: the types a constructor argument can
  have, the type traits used by `stored_type_t`, the three `init` overloads
  and the choice between the constructors of `unique_function`.
* Part 2 embeds the run-time side: the discriminant `type_`, the raw union,
  construction, move construction, move assignment, invocation, the presence
  check and `destroy_stored_object`; then the resources a destructor
  releases, and the counter of the latch. Construction through the generic
  constructor can nest, the wrapper building its member by a constructor
  call of its own, so it is defined with fuel.
* Part 3 proves the lemmas the claims share, first of all that the
  discriminant names the live member of the union in every reachable state.
* Part 4 states and proves the claims.

Callables are modelled by what they compute: a target of signature `R(A...)`
is a function `A → R` (the argument pack is one value of type `A`).
-/

namespace portable_concurrency

/-! ## Part 1: types, traits and overload selection -/

/-- The C++ types that matter to `stored_type_t`. Signatures and class types
are labelled by natural numbers. -/
inductive CppType where
  | nullptr_t
  | function (S : Nat)
  | std_function (S : Nat)
  | reference_wrapper (T : CppType)
  | unique_function (S : Nat)
  | class_type (id : Nat)
  | pointer (T : CppType)
  | const (T : CppType)
  | lvalue_reference (T : CppType)
  | rvalue_reference (T : CppType)
  deriving DecidableEq, Repr

/-- The enumeration `stored_type` of the class. -/
inductive stored_type where
  | empty
  | std_function
  | heap_invokable
  deriving DecidableEq, Repr

/-- The trait `std::is_same<F, G>`. -/
def is_same (F G : CppType) : Bool := decide (F = G)

/-- The trait `detail::is_std_function`: only the specialisation for
`std::function<S>` itself is true. -/
def is_std_function : CppType → Bool
  | .std_function _ => true
  | _ => false

/-- The trait `std::is_function`. -/
def is_function : CppType → Bool
  | .function _ => true
  | _ => false

/-- The trait `std::remove_pointer_t`: strips one pointer level, also from a
const-qualified pointer. -/
def remove_pointer_t : CppType → CppType
  | .pointer T => T
  | .const (.pointer T) => T
  | T => T

/-- Modelled from the spec: `detail::is_reference_wrapper` is declared in
`invoke.h`, which is not among the sources; the spec calls the case a
reference-wrapper type, so the trait is true for `std::reference_wrapper<T>`
only. -/
def is_reference_wrapper : CppType → Bool
  | .reference_wrapper _ => true
  | _ => false

/-- The trait `std::remove_reference_t`. -/
def remove_reference_t : CppType → CppType
  | .lvalue_reference T => T
  | .rvalue_reference T => T
  | T => T

/-- The trait `std::decay_t` (arrays are not modelled): references are
removed, a function type becomes a pointer to it, otherwise the top-level
const is dropped. -/
def decay_t (F : CppType) : CppType :=
  match remove_reference_t F with
  | .function S => .pointer (.function S)
  | .const T => T
  | T => T

/-- The alias `stored_type_t<F>` of the class. -/
def stored_type_t (F : CppType) : stored_type :=
  if is_same F .nullptr_t then .empty
  else if is_std_function F || is_function F || is_function (remove_pointer_t F)
      || is_reference_wrapper F then .std_function
  else .heap_invokable

/-- The condition under which the first `init` overload takes part in overload
resolution; it inspects `F` itself. -/
def init_empty_enabled (F : CppType) : Bool :=
  decide (stored_type_t F = .empty)

/-- The condition of the second `init` overload; it inspects `decay_t<F>`. -/
def init_std_function_enabled (F : CppType) : Bool :=
  decide (stored_type_t (decay_t F) = .std_function)

/-- The condition of the third `init` overload; it inspects `decay_t<F>`. -/
def init_heap_invokable_enabled (F : CppType) : Bool :=
  decide (stored_type_t (decay_t F) = .heap_invokable)

/-- The number of `init` overloads that are viable for a deduced `F`. -/
def init_overloads (F : CppType) : Nat :=
  (if init_empty_enabled F then 1 else 0)
    + (if init_std_function_enabled F then 1 else 0)
    + (if init_heap_invokable_enabled F then 1 else 0)

/-- The value category of a constructor argument. -/
inductive value_category where
  | lvalue
  | rvalue
  deriving DecidableEq, Repr

/-- Const qualification; it is ignored on function and reference types. -/
def add_const : CppType → CppType
  | .function S => .function S
  | .lvalue_reference T => .lvalue_reference T
  | .rvalue_reference T => .rvalue_reference T
  | .const T => .const T
  | T => .const T

/-- The type `F` deduced for the forwarding reference `F&&` from an argument
of (unqualified, non-reference) type `T`. -/
def deduce_F (T : CppType) (is_const : Bool) (category : value_category) : CppType :=
  let U := if is_const then add_const T else T
  match category with
  | .lvalue => .lvalue_reference U
  | .rvalue => U

/-- The constructors of `unique_function<S>` that take one argument: the
generic `unique_function(F&&)`, the move constructor, and the copy
constructor, which is implicitly declared as deleted because a move
constructor is declared. -/
inductive constructor where
  | generic (F : CppType)
  | move
  | deleted_copy
  deriving DecidableEq, Repr

/-- Overload resolution among the one-argument constructors of
`unique_function<S>` for an argument of type `T`. Every candidate binds a
reference directly, so the tie-breakers decide: an rvalue reference beats an
lvalue reference on an rvalue, the less const-qualified reference wins, and
between equal bindings the non-template wins. -/
def select_constructor (S : Nat) (T : CppType) (is_const : Bool)
    (category : value_category) : constructor :=
  if T = .unique_function S then
    match is_const, category with
    | false, .rvalue => .move
    | true, .lvalue => .deleted_copy
    | false, .lvalue => .generic (deduce_F T false .lvalue)
    | true, .rvalue => .generic (deduce_F T true .rvalue)
  else .generic (deduce_F T is_const category)

/-- The label that the signature `R(A...)` of the class itself has among the
signatures of `CppType`. -/
def own_signature : Nat := 0

/-! ## Part 2: the stored object and the operations on it -/

/-- How a call ends: with a value, with the exception `std::bad_function_call`,
or with undefined behaviour (a call through a null function pointer, or an
access to a union member that holds no live object). -/
inductive Outcome (R : Type) where
  | returned (r : R)
  | bad_function_call
  | undefined
  deriving DecidableEq, Repr

/-- A value handed to the generic constructor: the null marker, a
`std::function<S>` (with or without target), a plain function, a pointer to
function (possibly null), a `std::reference_wrapper<T>`, an object of any
other callable class type such as a closure, or an object of the class
`unique_function<R(A...)>` itself, which holds a callable or none. -/
inductive Source (A R : Type) where
  | nullptr
  | std_function (S : Nat) (target : Option (A → R))
  | function (S : Nat) (g : A → R)
  | function_pointer (S : Nat) (p : Option (A → R))
  | reference_wrapper (T : CppType) (g : A → R)
  | closure (id : Nat) (g : A → R)
  | unique_function (held : Option (A → R))

namespace Source

variable {A R : Type}

/-- The (unqualified, non-reference) type of a source value. -/
def type : Source A R → CppType
  | .nullptr => .nullptr_t
  | .std_function S _ => .std_function S
  | .function S _ => .function S
  | .function_pointer S _ => .pointer (.function S)
  | .reference_wrapper T _ => .reference_wrapper T
  | .closure id _ => .class_type id
  | .unique_function _ => .unique_function own_signature

/-- The direct call `f(args...)` of a source value. -/
def call : Source A R → A → Outcome R
  | .nullptr, _ => .undefined
  | .std_function _ none, _ => .bad_function_call
  | .std_function _ (some g), args => .returned (g args)
  | .function _ g, args => .returned (g args)
  | .function_pointer _ none, _ => .undefined
  | .function_pointer _ (some g), args => .returned (g args)
  | .reference_wrapper _ g, args => .returned (g args)
  | .closure _ g, args => .returned (g args)
  | .unique_function none, _ => .bad_function_call
  | .unique_function (some g), args => .returned (g args)

end Source

/-- The library type `std::function<R(A...)>`: it has a target or none. -/
structure std_function (A R : Type) where
  target : Option (A → R)

namespace std_function

variable {A R : Type}

/-- The converting constructor `std::function<R(A...)>(f)`: there is no target
when `f` is the null marker, a null function pointer or a `std::function`
without target; otherwise the target is (a copy of) `f`. No `init` overload
hands it a `unique_function`; the last case is there to make the function
total. -/
def ctor : Source A R → std_function A R
  | .nullptr => ⟨none⟩
  | .std_function _ t => ⟨t⟩
  | .function _ g => ⟨some g⟩
  | .function_pointer _ p => ⟨p⟩
  | .reference_wrapper _ g => ⟨some g⟩
  | .closure _ g => ⟨some g⟩
  | .unique_function t => ⟨t⟩

/-- The call operator of `std::function`: it throws `std::bad_function_call`
when there is no target. -/
def invoke (f : std_function A R) (args : A) : Outcome R :=
  match f.target with
  | none => .bad_function_call
  | some g => .returned (g args)

/-- The conversion of `std::function` to `bool`. -/
def to_bool (f : std_function A R) : Bool := f.target.isSome

end std_function

/-- What a `std::function` holds after it has been moved from. The language
leaves this value unspecified (valid but unspecified) and the source does not
decide it, so the move operations take it as a parameter. A library that
leaves no target, as libstdc++ does, is `moved_from_empty`; the claims that
speak of a moved-from lightweight-erased source are stated for it. -/
abbrev moved_from_policy (A R : Type) := std_function A R → std_function A R

/-- The policy of a library whose moved-from `std::function` has no target. -/
def moved_from_empty (A R : Type) : moved_from_policy A R := fun _ => ⟨none⟩

/-- The policy of a library whose moved-from `std::function` keeps its
target. -/
def moved_from_kept (A R : Type) : moved_from_policy A R := fun f => f

/-- The class `detail::invokable_wrapper<F, R, A...>`, the only class that
implements the interface `detail::invokable<R, A...>`. -/
structure invokable_wrapper (A R : Type) where
  func_ : Source A R

/-- Modelled from the spec: `detail::invoke` is declared in `invoke.h`, which
is not among the sources; the spec describes the wrapper as exposing a single
invoke operation on the held callable, so `detail::invoke(f, a...)` is the
call `f(a...)`. -/
def detail.invoke {A R : Type} (f : Source A R) (a : A) : Outcome R :=
  f.call a

/-- The member `invokable_wrapper::invoke`: it is `detail::invoke(func_, a...)`. -/
def invokable_wrapper.invoke {A R : Type} (w : invokable_wrapper A R) (a : A) : Outcome R :=
  detail.invoke w.func_ a

/-- The anonymous union of the class: which member holds a live object. The
member `heap_invokable_` is a `std::unique_ptr`: null, or the owner of one
heap-allocated wrapper. -/
inductive union_t (A R : Type) where
  | empty_
  | std_function_ (f : std_function A R)
  | heap_invokable_ (p : Option (invokable_wrapper A R))

/-- The class `unique_function<R(A...)>`: the discriminant and the union. -/
structure unique_function (A R : Type) where
  type_ : stored_type
  union_ : union_t A R

/-- An argument of the generic constructor: a value, its const
qualification and its value category. -/
structure argument (A R : Type) where
  value : Source A R
  is_const : Bool
  category : value_category

/-- The type `F` deduced by the generic constructor for an argument. -/
def argument.F {A R : Type} (x : argument A R) : CppType :=
  deduce_F x.value.type x.is_const x.category

/-- The constructor `invokable_wrapper(F&& f)`: it initialises the member
`func_`, of type `decay_t<F>`, from the forwarded argument. For a callable of
another class this is the copy or move constructor of that class. For a
`unique_function` it is again a construction of a `unique_function` from the
same argument: overload resolution chooses the constructor, and when it
chooses the generic one the wrapper is built only once that construction,
`construct_func`, has returned. -/
def invokable_wrapper.ctor {A R : Type}
    (construct_func : argument A R → Option (unique_function A R)) (x : argument A R) :
    Option (invokable_wrapper A R) :=
  match x.value with
  | .unique_function _ =>
    match select_constructor own_signature x.value.type x.is_const x.category with
    | .generic _ =>
      match construct_func x with
      | some _ => some ⟨x.value⟩
      | none => none
    | .move => some ⟨x.value⟩
    | .deleted_copy => none
  | v => some ⟨v⟩

namespace unique_function

variable {A R : Type}

/-- The default constructor: `type_` is `empty`, no member is constructed. -/
def default_ctor : unique_function A R := ⟨.empty, .empty_⟩

/-- The member `destroy_stored_object`: it runs the destructor of the member
named by `type_`. The result is `none` when that member holds no live object. -/
def destroy_stored_object (self : unique_function A R) : Option (unique_function A R) :=
  match self.type_ with
  | .empty => some self
  | .std_function =>
    match self.union_ with
    | .std_function_ _ => some { self with union_ := .empty_ }
    | _ => none
  | .heap_invokable =>
    match self.union_ with
    | .heap_invokable_ _ => some { self with union_ := .empty_ }
    | _ => none

/-- The three overloads of `init`, selected by their `enable_if` conditions on
the deduced `F`. The argument `wrapper` is what
`std::make_unique<invokable_wrapper<F, R, A...>>(f)` yields in the third
overload: the wrapper, or `none` when its construction does not return one;
the allocation itself is taken to succeed. The result is `none` when the
assertion `type_ == empty` fails, when no overload is viable (the program is
ill-formed), or when the wrapper is not built. -/
def init (F : CppType) (f : Source A R) (wrapper : Option (invokable_wrapper A R))
    (self : unique_function A R) : Option (unique_function A R) :=
  if self.type_ ≠ .empty then none
  else if init_empty_enabled F then some self
  else if init_std_function_enabled F then
    some { type_ := .std_function, union_ := .std_function_ (std_function.ctor f) }
  else if init_heap_invokable_enabled F then
    match wrapper with
    | some w => some { type_ := .heap_invokable, union_ := .heap_invokable_ (some w) }
    | none => none
  else none

/-- The construction of a `unique_function` from one argument through the
generic constructor `unique_function(F&& f)`, with a bound on the depth of
nested constructions: `fuel` counts the constructor calls that may still be
entered. The result is `none` when the fuel is used up before the
construction returns, when overload resolution chooses another constructor
(the move constructor, or the deleted copy constructor), or when `init`
yields no object. -/
def construct_fuel : Nat → argument A R → Option (unique_function A R)
  | 0, _ => none
  | fuel + 1, x =>
    match select_constructor own_signature x.value.type x.is_const x.category with
    | .generic F => init F x.value (invokable_wrapper.ctor (construct_fuel fuel) x) default_ctor
    | .move => none
    | .deleted_copy => none

/-- The generic constructor `unique_function(F&& f)`: the object it yields
when it returns. A construction that returns enters the constructor once, so
one unit of fuel decides it. -/
def construct (x : argument A R) : Option (unique_function A R) :=
  construct_fuel 1 x

/-- The move constructor. The result is the new object and the state in which
`rhs` is left; `none` when `rhs.type_` names a member that is not live. -/
def move_construct (mf : moved_from_policy A R) (rhs : unique_function A R) :
    Option (unique_function A R × unique_function A R) :=
  match rhs.type_ with
  | .empty => some (default_ctor, rhs)
  | .std_function =>
    match rhs.union_ with
    | .std_function_ f =>
      some ({ type_ := .std_function, union_ := .std_function_ f },
            { rhs with union_ := .std_function_ (mf f) })
    | _ => none
  | .heap_invokable =>
    match rhs.union_ with
    | .heap_invokable_ p =>
      some ({ type_ := .heap_invokable, union_ := .heap_invokable_ p },
            { rhs with union_ := .heap_invokable_ none })
    | _ => none

/-- The move assignment `*this = std::move(rhs)` for two distinct objects (the
assignment of an object to itself is `operator_assign_self`).
The result is the new state of `*this` and the state in which `rhs` is left;
`none` when a member that is not live is accessed. -/
def operator_assign (mf : moved_from_policy A R) (self rhs : unique_function A R) :
    Option (unique_function A R × unique_function A R) :=
  if self.type_ = rhs.type_ then
    match self.type_ with
    | .empty => some (self, rhs)
    | .std_function =>
      match self.union_, rhs.union_ with
      | .std_function_ _, .std_function_ f =>
        some ({ self with union_ := .std_function_ f },
              { rhs with union_ := .std_function_ (mf f) })
      | _, _ => none
    | .heap_invokable =>
      match self.union_, rhs.union_ with
      | .heap_invokable_ _, .heap_invokable_ p =>
        some ({ self with union_ := .heap_invokable_ p },
              { rhs with union_ := .heap_invokable_ none })
      | _, _ => none
  else
    match destroy_stored_object self with
    | none => none
    | some destroyed =>
      let cleared : unique_function A R := { destroyed with type_ := .empty }
      match rhs.type_ with
      | .empty => some (cleared, rhs)
      | .std_function =>
        match rhs.union_ with
        | .std_function_ f =>
          some ({ type_ := .std_function, union_ := .std_function_ f },
                { rhs with union_ := .std_function_ (mf f) })
        | _ => none
      | .heap_invokable =>
        match rhs.union_ with
        | .heap_invokable_ p =>
          some ({ type_ := .heap_invokable, union_ := .heap_invokable_ p },
                { rhs with union_ := .heap_invokable_ none })
        | _ => none

/-- The move assignment of `std::function` to itself. Its effect is that of
`function(std::move(f)).swap(*this)`: the temporary takes the target, `*this`
is left as a moved-from value, and the swap gives the target back. -/
def std_function_self_assign (mf : moved_from_policy A R) (f : std_function A R) :
    std_function A R :=
  let temporary := f
  let _moved_from := mf f
  temporary

/-- The move assignment of `std::unique_ptr` to itself. Its effect is that of
`reset(release())`: `release` hands out the pointer and `reset` stores it
again, deleting the null pointer left in between. -/
def unique_ptr_self_assign (p : Option (invokable_wrapper A R)) :
    Option (invokable_wrapper A R) :=
  let released := p
  released

/-- The move assignment `*this = std::move(*this)`, where `rhs` is the object
itself: the kinds are equal, so the first branch moves the live member onto
itself and returns. The result is `none` when that member is not live. -/
def operator_assign_self (mf : moved_from_policy A R) (self : unique_function A R) :
    Option (unique_function A R) :=
  match self.type_ with
  | .empty => some self
  | .std_function =>
    match self.union_ with
    | .std_function_ f =>
      some { self with union_ := .std_function_ (std_function_self_assign mf f) }
    | _ => none
  | .heap_invokable =>
    match self.union_ with
    | .heap_invokable_ p =>
      some { self with union_ := .heap_invokable_ (unique_ptr_self_assign p) }
    | _ => none

/-- The call operator `operator()`. -/
def operator_call (self : unique_function A R) (args : A) : Outcome R :=
  match self.type_ with
  | .empty => .bad_function_call
  | .std_function =>
    match self.union_ with
    | .std_function_ f => f.invoke args
    | _ => .undefined
  | .heap_invokable =>
    match self.union_ with
    | .heap_invokable_ (some w) => w.invoke args
    | .heap_invokable_ none => .bad_function_call
    | _ => .undefined

/-- The presence check `explicit operator bool`; `none` when the member named
by `type_` is not live. -/
def operator_bool (self : unique_function A R) : Option Bool :=
  match self.type_ with
  | .empty => some false
  | .std_function =>
    match self.union_ with
    | .std_function_ f => some f.to_bool
    | _ => none
  | .heap_invokable =>
    match self.union_ with
    | .heap_invokable_ p => some p.isSome
    | _ => none

/-- The discriminant names the live member of the union. -/
def consistent (self : unique_function A R) : Bool :=
  match self.type_, self.union_ with
  | .empty, .empty_ => true
  | .std_function, .std_function_ _ => true
  | .heap_invokable, .heap_invokable_ _ => true
  | _, _ => false

end unique_function

/-- The states a `unique_function` can reach: default construction,
construction from an argument, and being the destination or the source of a
move construction or of a move assignment between reachable objects. -/
inductive Reachable {A R : Type} (mf : moved_from_policy A R) : unique_function A R → Prop where
  | default_ctor : Reachable mf unique_function.default_ctor
  | construct (x : argument A R) (u : unique_function A R) :
      unique_function.construct x = some u → Reachable mf u
  | move_construct_new (rhs b a : unique_function A R) :
      Reachable mf rhs → unique_function.move_construct mf rhs = some (b, a) → Reachable mf b
  | move_construct_old (rhs b a : unique_function A R) :
      Reachable mf rhs → unique_function.move_construct mf rhs = some (b, a) → Reachable mf a
  | operator_assign_lhs (d s d1 s1 : unique_function A R) :
      Reachable mf d → Reachable mf s →
      unique_function.operator_assign mf d s = some (d1, s1) → Reachable mf d1
  | operator_assign_rhs (d s d1 s1 : unique_function A R) :
      Reachable mf d → Reachable mf s →
      unique_function.operator_assign mf d s = some (d1, s1) → Reachable mf s1

/-! ### Concrete objects used in the scenarios -/

/-- The closure of the spec scenario: it captures `held_value = 7` and
computes `x -> x + held_value`; it is passed as an rvalue. -/
def held_value_closure : argument Int Int :=
  ⟨.closure 0 (fun x => x + 7), false, .rvalue⟩

/-- The object built from `held_value_closure`. -/
def held_value_object : unique_function Int Int :=
  ⟨.heap_invokable, .heap_invokable_ (some ⟨.closure 0 (fun x => x + 7)⟩)⟩

/-- A pointer to the function `x -> x + 7`, passed as an rvalue. -/
def plus_seven_pointer : argument Int Int :=
  ⟨.function_pointer 0 (some (fun x => x + 7)), false, .rvalue⟩

/-- The object built from `plus_seven_pointer`. -/
def plus_seven_object : unique_function Int Int :=
  ⟨.std_function, .std_function_ ⟨some (fun x => x + 7)⟩⟩

/-- The state in which a heap-erased object is left by a move: the kind is
still heap-erased and the allocation pointer is null. -/
def moved_from_heap_object : unique_function Int Int :=
  ⟨.heap_invokable, .heap_invokable_ none⟩

/-- A `unique_function<int(int)>` that holds the closure of the scenario,
handed to the generic constructor as a non-const lvalue. -/
def held_value_lvalue : argument Int Int :=
  ⟨.unique_function (some (fun x => x + 7)), false, .lvalue⟩

/-- A null pointer to function of signature `int(int)`, passed as an rvalue. -/
def null_function_pointer : argument Int Int :=
  ⟨.function_pointer 0 none, false, .rvalue⟩

/-- The object built from `null_function_pointer`. -/
def null_pointer_object : unique_function Int Int :=
  ⟨.std_function, .std_function_ ⟨none⟩⟩

/-! ### Invocation and presence check as steps on the state -/

namespace unique_function

variable {A R : Type}

/-- The call operator as a step on the state: the outcome of the call and the
state of the object after it. The operator is not const, but no branch of its
body assigns `type_` or a member of the union. -/
def call_step (self : unique_function A R) (args : A) : Outcome R × unique_function A R :=
  match self.type_ with
  | .empty => (.bad_function_call, self)
  | .std_function =>
    match self.union_ with
    | .std_function_ f => (f.invoke args, self)
    | _ => (.undefined, self)
  | .heap_invokable =>
    match self.union_ with
    | .heap_invokable_ (some w) => (w.invoke args, self)
    | .heap_invokable_ none => (.bad_function_call, self)
    | _ => (.undefined, self)

/-- The presence check as a step on the state; it is a const member. -/
def bool_step (self : unique_function A R) : Option Bool × unique_function A R :=
  (self.operator_bool, self)

end unique_function

/-- One use of an object by its owner: a call with arguments, or a presence
check. -/
inductive observation (A : Type) where
  | call (args : A)
  | to_bool

/-- What one use shows: the outcome of the call, or the answer of the
presence check. -/
inductive observed (R : Type) where
  | outcome (o : Outcome R)
  | presence (b : Option Bool)

/-- One use, as a step on the state. -/
def observe_step {A R : Type} (self : unique_function A R) :
    observation A → observed R × unique_function A R
  | .call args => (.outcome (self.call_step args).1, (self.call_step args).2)
  | .to_bool => (.presence self.bool_step.1, self.bool_step.2)

/-- A run of uses, each on the state the previous one left: what they show,
in order, and the final state. -/
def observe {A R : Type} (self : unique_function A R) :
    List (observation A) → List (observed R) × unique_function A R
  | [] => ([], self)
  | op :: ops =>
    ((observe_step self op).1 :: (observe (observe_step self op).2 ops).1,
      (observe (observe_step self op).2 ops).2)

/-- What a use shows on a state that never changes. -/
def observed_on {A R : Type} (self : unique_function A R) : observation A → observed R
  | .call args => .outcome (self.operator_call args)
  | .to_bool => .presence self.operator_bool

/-! ### Destruction and the resources it releases -/

/-- A resource owned by a `unique_function`: the `std::function` member with
its target, the heap allocation of a wrapper, and the callable `func_` held in
a wrapper, with its captured state. -/
inductive resource (A R : Type) where
  | container (f : std_function A R)
  | allocation (w : invokable_wrapper A R)
  | callable (f : Source A R)

/-- The effect of a destructor: the resources it releases, in order, or
undefined behaviour. -/
inductive destruction (A R : Type) where
  | released (resources : List (resource A R))
  | undefined

/-- Whether the destructor of `detail::invokable` is virtual. The class
declares the pure virtual member `invoke` and nothing else, so its destructor
is the implicit one, which is not virtual. -/
def invokable_virtual_destructor : Bool := false

/-- The expression `delete p` that `std::default_delete<invokable>` runs on a
non-null pointer. The static type is `invokable`, the dynamic type is
`invokable_wrapper`. With a virtual destructor in the base the destructor of
the wrapper runs, which destroys `func_`, and the allocation is freed; without
one the behaviour is undefined, and the destructor of the wrapper is not the
one called. -/
def default_delete {A R : Type} (virtual_destructor : Bool) (w : invokable_wrapper A R) :
    destruction A R :=
  if virtual_destructor then .released [.callable w.func_, .allocation w]
  else .undefined

/-- The destructor of `std::unique_ptr<invokable>`: nothing for a null
pointer, `delete` otherwise. -/
def unique_ptr_destructor {A R : Type} (p : Option (invokable_wrapper A R)) :
    destruction A R :=
  match p with
  | none => .released []
  | some w => default_delete invokable_virtual_destructor w

/-- The destructor `~unique_function`, which calls `destroy_stored_object`:
the resources released by the destructor of the member named by `type_`;
undefined when that member holds no live object. The operations on the state
above do not track resources; this function does. -/
def unique_function.destructor {A R : Type} (self : unique_function A R) : destruction A R :=
  match self.type_ with
  | .empty => .released []
  | .std_function =>
    match self.union_ with
    | .std_function_ f => .released [.container f]
    | _ => .undefined
  | .heap_invokable =>
    match self.union_ with
    | .heap_invokable_ p => unique_ptr_destructor p
    | _ => .undefined

/-! ### The latch -/

/-- The type `ptrdiff_t` (64 bits, signed): the value an integer has after it
is brought into the range from `-2^63` to `2^63 - 1`. -/
def ptrdiff_wrap (x : Int) : Int :=
  (x + 9223372036854775808) % 18446744073709551616 - 9223372036854775808

/-- The class `latch`: its counter. The mutex and the condition variable hold
no data of their own. -/
structure latch where
  counter_ : Int
  deriving DecidableEq, Repr

namespace latch

/-- The constructor `explicit latch(ptrdiff_t count)`. -/
def ctor (count : Int) : latch := ⟨count⟩

/-- Modelled from the spec: the body of `latch::count_down` is not among the
sources, `latch.h` only declares it. The spec says it decrements the counter
by `n` under the lock and, if the counter reaches zero, wakes all current and
future waiters; the wake-up has no effect on the counter. -/
def count_down (self : latch) (n : Int) : latch :=
  ⟨ptrdiff_wrap (self.counter_ - n)⟩

/-- Modelled from the spec: the body of `latch::is_ready` is not among the
sources, `latch.h` only declares it. The spec says it returns whether the
counter is currently zero. -/
def is_ready (self : latch) : Bool := decide (self.counter_ = 0)

/-- A sequence of `count_down` calls, serialised by the lock. -/
def count_down_all (self : latch) (ks : List Int) : latch :=
  ks.foldl count_down self

end latch

/-- The decrements of the spec scenario `Latch(3)`: three calls `count_down(1)`. -/
def three_decrements : List Int := [1, 1, 1]

/-! ## Part 3: lemmas shared by the claims -/

open unique_function

section lemmas

variable {A R : Type}

/-- With no fuel no construction returns. -/
theorem construct_fuel_zero (x : argument A R) : construct_fuel 0 x = none := rfl

/-- One level of the construction: overload resolution, then `init` with the
wrapper that the remaining fuel builds. -/
theorem construct_fuel_succ (fuel : Nat) (x : argument A R) :
    construct_fuel (fuel + 1) x =
      match select_constructor own_signature x.value.type x.is_const x.category with
      | .generic F =>
        init F x.value (invokable_wrapper.ctor (construct_fuel fuel) x) default_ctor
      | .move => none
      | .deleted_copy => none := rfl

/-- The construction with fuel, case by case. It yields no object from a
`unique_function`: for a non-const rvalue the move constructor is chosen, for
a const lvalue the deleted copy constructor, and for a non-const lvalue or a
const rvalue the generic constructor waits for the nested construction of
`func_` from the same argument. It fails to compile for a null marker that is
an lvalue or const. Otherwise it yields the state named here. -/
theorem construct_fuel_eq (fuel : Nat) (x : argument A R) :
    construct_fuel (fuel + 1) x =
      match x.value with
      | .nullptr =>
        if x.is_const = false ∧ x.category = .rvalue then some default_ctor else none
      | .closure _ _ => some ⟨.heap_invokable, .heap_invokable_ (some ⟨x.value⟩)⟩
      | .unique_function _ =>
        if (x.is_const = false ∧ x.category = .lvalue)
            ∨ (x.is_const = true ∧ x.category = .rvalue) then
          match construct_fuel fuel x with
          | some _ => some ⟨.heap_invokable, .heap_invokable_ (some ⟨x.value⟩)⟩
          | none => none
        else none
      | v => some ⟨.std_function, .std_function_ (std_function.ctor v)⟩ := by
  rw [construct_fuel_succ]
  rcases x with ⟨v, c, cat⟩
  cases v <;> cases c <;> cases cat <;>
    simp [select_constructor, own_signature, invokable_wrapper.ctor, init, default_ctor,
      argument.F, deduce_F, add_const, Source.type,
      init_empty_enabled, init_std_function_enabled, init_heap_invokable_enabled,
      stored_type_t, decay_t, remove_reference_t, remove_pointer_t, is_same,
      is_std_function, is_function, is_reference_wrapper] <;>
    cases construct_fuel fuel _ <;> rfl

/-- The construction from a `unique_function` yields no object, whatever the
fuel. -/
theorem construct_fuel_unique_function (fuel : Nat) (t : Option (A → R)) (c : Bool)
    (cat : value_category) : construct_fuel fuel ⟨.unique_function t, c, cat⟩ = none := by
  induction fuel with
  | zero => rfl
  | succ n ih =>
    rw [construct_fuel_eq]
    simp only [ih]
    split <;> rfl

/-- The generic constructor, case by case: it yields no object from a
`unique_function`, it fails to compile for a null marker that is an lvalue or
const, and otherwise yields the state named here. -/
theorem construct_eq (x : argument A R) :
    construct x =
      match x.value with
      | .nullptr =>
        if x.is_const = false ∧ x.category = .rvalue then some default_ctor else none
      | .closure _ _ => some ⟨.heap_invokable, .heap_invokable_ (some ⟨x.value⟩)⟩
      | .unique_function _ => none
      | v => some ⟨.std_function, .std_function_ (std_function.ctor v)⟩ := by
  rcases x with ⟨v, c, cat⟩
  cases v with
  | unique_function t => exact construct_fuel_unique_function 1 t c cat
  | _ => exact construct_fuel_eq 0 _

/-- More fuel does not change the object a construction has yielded, and one
unit of fuel is enough for every construction that returns: the generic
constructor yields an object exactly when the construction returns it for
some fuel. -/
theorem construct_iff (x : argument A R) (u : unique_function A R) :
    construct x = some u ↔ ∃ fuel, construct_fuel fuel x = some u := by
  constructor
  · intro h
    exact ⟨1, h⟩
  · rintro ⟨fuel, h⟩
    cases fuel with
    | zero => simp [construct_fuel_zero] at h
    | succ n =>
      rcases x with ⟨v, c, cat⟩
      cases v with
      | unique_function t => simp [construct_fuel_unique_function] at h
      | _ =>
        rw [construct_fuel_eq] at h
        rw [construct, construct_fuel_eq]
        exact h

/-- Every state built by the generic constructor is consistent. -/
theorem construct_consistent (x : argument A R) (u : unique_function A R)
    (h : construct x = some u) : u.consistent = true := by
  rw [construct_eq] at h
  rcases x with ⟨v, c, cat⟩
  cases v <;> simp at h <;> (first | subst h | obtain ⟨_, rfl⟩ := h) <;>
    simp [consistent, default_ctor]

/-- A consistent state is one of three shapes. -/
theorem consistent_cases (u : unique_function A R) (h : u.consistent = true) :
    u = ⟨.empty, .empty_⟩ ∨ (∃ f, u = ⟨.std_function, .std_function_ f⟩)
      ∨ (∃ p, u = ⟨.heap_invokable, .heap_invokable_ p⟩) := by
  rcases u with ⟨t, s⟩
  cases t <;> cases s <;> simp [consistent] at h ⊢

/-- Move construction from a consistent state succeeds and leaves two
consistent states. -/
theorem move_construct_consistent (mf : moved_from_policy A R) (rhs : unique_function A R)
    (h : rhs.consistent = true) :
    ∃ b a, move_construct mf rhs = some (b, a) ∧ b.consistent = true ∧ a.consistent = true := by
  rcases consistent_cases rhs h with rfl | ⟨f, rfl⟩ | ⟨p, rfl⟩ <;>
    exact ⟨_, _, rfl, rfl, rfl⟩

/-- Move assignment between consistent states succeeds and leaves two
consistent states. -/
theorem operator_assign_consistent (mf : moved_from_policy A R) (d s : unique_function A R)
    (hd : d.consistent = true) (hs : s.consistent = true) :
    ∃ d1 s1, operator_assign mf d s = some (d1, s1) ∧ d1.consistent = true
      ∧ s1.consistent = true := by
  rcases consistent_cases d hd with rfl | ⟨f, rfl⟩ | ⟨p, rfl⟩ <;>
    rcases consistent_cases s hs with rfl | ⟨g, rfl⟩ | ⟨q, rfl⟩ <;>
    exact ⟨_, _, rfl, rfl, rfl⟩

/-- Every reachable state is consistent. -/
theorem reachable_consistent (mf : moved_from_policy A R) (u : unique_function A R)
    (h : Reachable mf u) : u.consistent = true := by
  induction h with
  | default_ctor => simp [consistent, default_ctor]
  | construct x u hx => exact construct_consistent x u hx
  | move_construct_new rhs b a _ hm ih =>
    obtain ⟨b1, a1, h1, hb, _⟩ := move_construct_consistent mf rhs ih
    rw [hm] at h1
    cases h1
    exact hb
  | move_construct_old rhs b a _ hm ih =>
    obtain ⟨b1, a1, h1, _, ha⟩ := move_construct_consistent mf rhs ih
    rw [hm] at h1
    cases h1
    exact ha
  | operator_assign_lhs d s d1 s1 _ _ hm ihd ihs =>
    obtain ⟨d2, s2, h1, hd, _⟩ := operator_assign_consistent mf d s ihd ihs
    rw [hm] at h1
    cases h1
    exact hd
  | operator_assign_rhs d s d1 s1 _ _ hm ihd ihs =>
    obtain ⟨d2, s2, h1, _, hs⟩ := operator_assign_consistent mf d s ihd ihs
    rw [hm] at h1
    cases h1
    exact hs

/-- The first `init` overload is viable for the null marker type only. -/
theorem stored_type_t_empty_iff (F : CppType) :
    stored_type_t F = .empty ↔ F = .nullptr_t := by
  unfold stored_type_t is_same
  by_cases h : F = .nullptr_t
  · simp [h]
  · constructor
    · intro h1
      rw [if_neg (by simpa using h)] at h1
      split at h1 <;> cases h1
    · intro h1
      exact absurd h1 h

/-- At most one `init` overload is viable, whatever `F` is. -/
theorem init_overloads_le_one (F : CppType) : init_overloads F ≤ 1 := by
  unfold init_overloads init_empty_enabled init_std_function_enabled
    init_heap_invokable_enabled
  by_cases h : F = .nullptr_t
  · subst h
    decide
  · have h1 : ¬ stored_type_t F = .empty := fun h2 => h ((stored_type_t_empty_iff F).1 h2)
    cases h2 : stored_type_t (decay_t F) <;> simp [h1]

/-- Exactly one `init` overload is viable when `F` is a decayed type. -/
theorem init_overloads_decayed (F : CppType) (h : decay_t F = F) : init_overloads F = 1 := by
  unfold init_overloads init_empty_enabled init_std_function_enabled
    init_heap_invokable_enabled
  rw [h]
  cases h2 : stored_type_t F <;> simp

/-- No `init` overload is viable for a null marker that is an lvalue: the
first overload inspects `F` itself, which is then a reference, and the other
two inspect the decayed type, which is the null marker type. -/
theorem init_overloads_lvalue_nullptr : init_overloads (.lvalue_reference .nullptr_t) = 0 := by
  decide

/-- The kind of a constructed object is `stored_type_t` of the decayed
argument type. -/
theorem construct_type (x : argument A R) (u : unique_function A R)
    (h : construct x = some u) : u.type_ = stored_type_t (decay_t x.F) := by
  rw [construct_eq] at h
  rcases x with ⟨v, c, cat⟩
  cases v <;> simp at h <;> (first | subst h | obtain ⟨_, rfl⟩ := h) <;>
    cases c <;> cases cat <;>
    simp [default_ctor, argument.F, deduce_F, add_const, Source.type, stored_type_t,
      decay_t, remove_reference_t, remove_pointer_t, is_same, is_std_function,
      is_function, is_reference_wrapper]

theorem held_value_object_eq : construct held_value_closure = some held_value_object := by
  rw [construct_eq]; rfl

theorem plus_seven_object_eq : construct plus_seven_pointer = some plus_seven_object := by
  rw [construct_eq]; rfl

theorem null_pointer_object_eq : construct null_function_pointer = some null_pointer_object := by
  rw [construct_eq]; rfl

/-- A reachable state has one of four shapes; a wrapper on the heap holds a
callable of class type, the only sources that select the heap-erased
strategy. -/
theorem reachable_shape (mf : moved_from_policy A R) (u : unique_function A R)
    (h : Reachable mf u) :
    u = ⟨.empty, .empty_⟩ ∨ (∃ f, u = ⟨.std_function, .std_function_ f⟩)
      ∨ u = ⟨.heap_invokable, .heap_invokable_ none⟩
      ∨ (∃ id g, u = ⟨.heap_invokable, .heap_invokable_ (some ⟨.closure id g⟩)⟩) := by
  induction h with
  | default_ctor => exact Or.inl rfl
  | construct x u hx =>
    rw [construct_eq] at hx
    rcases x with ⟨v, c, cat⟩
    cases v <;> simp at hx <;> (first | subst hx | obtain ⟨_, rfl⟩ := hx) <;>
      simp [default_ctor]
  | move_construct_new rhs b a _ hm ih =>
    rcases ih with rfl | ⟨f, rfl⟩ | rfl | ⟨id, g, rfl⟩ <;>
      simp [move_construct, default_ctor] at hm <;> obtain ⟨rfl, rfl⟩ := hm <;> simp
  | move_construct_old rhs b a _ hm ih =>
    rcases ih with rfl | ⟨f, rfl⟩ | rfl | ⟨id, g, rfl⟩ <;>
      simp [move_construct, default_ctor] at hm <;> obtain ⟨rfl, rfl⟩ := hm <;> simp
  | operator_assign_lhs d s d1 s1 _ _ hm ihd ihs =>
    rcases ihd with rfl | ⟨f, rfl⟩ | rfl | ⟨id, g, rfl⟩ <;>
      rcases ihs with rfl | ⟨f1, rfl⟩ | rfl | ⟨id1, g1, rfl⟩ <;>
      simp [operator_assign, destroy_stored_object] at hm <;>
      obtain ⟨rfl, rfl⟩ := hm <;> simp
  | operator_assign_rhs d s d1 s1 _ _ hm ihd ihs =>
    rcases ihd with rfl | ⟨f, rfl⟩ | rfl | ⟨id, g, rfl⟩ <;>
      rcases ihs with rfl | ⟨f1, rfl⟩ | rfl | ⟨id1, g1, rfl⟩ <;>
      simp [operator_assign, destroy_stored_object] at hm <;>
      obtain ⟨rfl, rfl⟩ := hm <;> simp

/-- The call step shows the outcome of the call operator and leaves the state
as it was. -/
theorem call_step_eq (u : unique_function A R) (args : A) :
    u.call_step args = (u.operator_call args, u) := by
  rcases u with ⟨t, s⟩
  cases t with
  | empty => rfl
  | std_function => cases s <;> rfl
  | heap_invokable =>
    cases s with
    | heap_invokable_ p => cases p <;> rfl
    | _ => rfl

/-- A run of uses shows, use by use, what the initial state shows, and ends in
the initial state. -/
theorem observe_eq (u : unique_function A R) (ops : List (observation A)) :
    observe u ops = (ops.map (observed_on u), u) := by
  induction ops with
  | nil => rfl
  | cons op ops ih =>
    have h1 : observe_step u op = (observed_on u op, u) := by
      cases op with
      | call args => simp [observe_step, observed_on, call_step_eq]
      | to_bool => rfl
    simp [observe, h1, ih]

/-- A value already in the range of `ptrdiff_t` is not changed by the
wrap-around. -/
theorem ptrdiff_wrap_eq (x : Int) (h1 : -9223372036854775808 ≤ x)
    (h2 : x < 9223372036854775808) : ptrdiff_wrap x = x := by
  unfold ptrdiff_wrap
  omega

/-- Decrements that are not negative and do not exceed the counter in total
subtract their sum from it. -/
theorem count_down_all_counter (ks : List Int) (c : Int) (hc : c < 9223372036854775808)
    (hk : ∀ k ∈ ks, 0 ≤ k) (hs : ks.sum ≤ c) :
    (latch.count_down_all ⟨c⟩ ks).counter_ = c - ks.sum := by
  induction ks generalizing c with
  | nil => simp [latch.count_down_all]
  | cons k ks ih =>
    have hk0 : 0 ≤ k := hk k (List.mem_cons_self k ks)
    have hks : ∀ j ∈ ks, 0 ≤ j := fun j hj => hk j (List.mem_cons_of_mem k hj)
    have hsum : 0 ≤ ks.sum := List.sum_nonneg hks
    rw [List.sum_cons] at hs
    have hw : ptrdiff_wrap (c - k) = c - k := ptrdiff_wrap_eq _ (by omega) (by omega)
    have h := ih (c - k) (by omega) hks (by omega)
    simp only [latch.count_down_all, List.foldl_cons, latch.count_down, hw] at h ⊢
    rw [h, List.sum_cons]
    omega

/-- The sum of a prefix of decrements that are not negative grows with the
prefix. -/
theorem sum_take_mono (ks : List Int) (hk : ∀ k ∈ ks, 0 ≤ k) (i j : Nat) (hij : i ≤ j) :
    (ks.take i).sum ≤ (ks.take j).sum := by
  induction ks generalizing i j with
  | nil => simp
  | cons k ks ih =>
    have hk0 : 0 ≤ k := hk k (List.mem_cons_self k ks)
    have hks : ∀ m ∈ ks, 0 ≤ m := fun m hm => hk m (List.mem_cons_of_mem k hm)
    cases i with
    | zero =>
      simp only [List.take_zero, List.sum_nil]
      exact List.sum_nonneg (fun m hm => hk m (List.mem_of_mem_take hm))
    | succ i =>
      cases j with
      | zero => omega
      | succ j =>
        simp only [List.take_succ_cons, List.sum_cons]
        have := ih hks i j (by omega)
        omega

/-- A reachable object whose presence check is true holds one callable, and
every call returns the result of that callable. -/
theorem present_returns (mf : moved_from_policy A R) (u : unique_function A R)
    (h : Reachable mf u) (hp : u.operator_bool = some true) :
    ∃ g : A → R, ∀ args, u.operator_call args = .returned (g args) := by
  rcases reachable_shape mf u h with rfl | ⟨f, rfl⟩ | rfl | ⟨id, g, rfl⟩
  · simp [operator_bool] at hp
  · rcases f with ⟨t⟩
    cases t with
    | none => simp [operator_bool, std_function.to_bool] at hp
    | some g => exact ⟨g, fun _ => rfl⟩
  · simp [operator_bool] at hp
  · exact ⟨g, fun _ => rfl⟩

/-- For every source that is not itself a `unique_function` and every argument
on which the direct call returns a value, the construction succeeds with kind
lightweight-erased or heap-erased, and invoking the constructed object with
the same argument returns the same value. -/
theorem invoke_same_result (x : argument A R) (args : A) (r : R)
    (hx : ∀ t, x.value ≠ .unique_function t) (h : x.value.call args = .returned r) :
    ∃ u, construct x = some u
      ∧ (u.type_ = .std_function ∨ u.type_ = .heap_invokable)
      ∧ u.operator_call args = .returned r := by
  rw [construct_eq]
  rcases x with ⟨v, c, cat⟩
  cases v with
  | nullptr => simp [Source.call] at h
  | std_function S t =>
    cases t with
    | none => simp [Source.call] at h
    | some g => exact ⟨_, rfl, Or.inl rfl, h⟩
  | function S g => exact ⟨_, rfl, Or.inl rfl, h⟩
  | function_pointer S q =>
    cases q with
    | none => simp [Source.call] at h
    | some g => exact ⟨_, rfl, Or.inl rfl, h⟩
  | reference_wrapper T g => exact ⟨_, rfl, Or.inl rfl, h⟩
  | closure id g => exact ⟨_, rfl, Or.inr rfl, h⟩
  | unique_function t => exact absurd rfl (hx t)

/-- For every source that is not itself a `unique_function` and whose type
selects the heap-erased strategy, the construction succeeds, the object has
kind heap-erased and holds a non-null allocation, the wrapper around the
source, and its presence check is true; once it is moved from, its allocation
pointer is null and its presence check is false, while the object moved into
is present. -/
theorem heap_erased_present (x : argument A R) (hx : ∀ t, x.value ≠ .unique_function t)
    (h : stored_type_t (decay_t x.F) = .heap_invokable) (mf : moved_from_policy A R) :
    ∃ u, construct x = some u
      ∧ u.type_ = .heap_invokable
      ∧ u.union_ = .heap_invokable_ (some ⟨x.value⟩)
      ∧ u.operator_bool = some true
      ∧ ∃ b a, move_construct mf u = some (b, a)
          ∧ b.operator_bool = some true
          ∧ a.union_ = .heap_invokable_ none
          ∧ a.operator_bool = some false := by
  rw [construct_eq]
  rcases x with ⟨v, c, cat⟩
  cases v with
  | closure id g => exact ⟨_, rfl, rfl, rfl, rfl, _, _, rfl, rfl, rfl, rfl⟩
  | unique_function t => exact absurd rfl (hx t)
  | _ =>
    exfalso
    revert h
    cases c <;> cases cat <;>
      simp [argument.F, deduce_F, add_const, Source.type, stored_type_t, decay_t,
        remove_reference_t, remove_pointer_t, is_same, is_std_function, is_function,
        is_reference_wrapper]

end lemmas

/-! ## Part 4: the claims -/

section claims

variable {A R : Type}

/-- C1, evaluated on the code: a `unique_function<int(int)>` that holds the
closure `x -> x + 7` is a callable of the signature, and called directly with
`5` it returns `12`. Handed to the generic constructor as a non-const lvalue
it is accepted: overload resolution chooses the generic constructor and the
heap-erased `init` overload is viable. The wrapper then builds its member
`func_` from the same lvalue by the same constructor, so each level of the
construction waits for the next one and no amount of fuel makes it return: no
object is constructed that could return `12`. The closure handed over itself
gives an object that returns `12`, and for every source that is not itself a
`unique_function` the construction returns and the constructed object returns
what the source returns. -/
theorem C1_unique_function_source :
    held_value_lvalue.value.call 5 = .returned 12
      ∧ select_constructor own_signature held_value_lvalue.value.type
          held_value_lvalue.is_const held_value_lvalue.category
          = .generic held_value_lvalue.F
      ∧ init_heap_invokable_enabled held_value_lvalue.F = true
      ∧ (∀ fuel, construct_fuel (fuel + 1) held_value_lvalue
          = match construct_fuel fuel held_value_lvalue with
            | some _ =>
              some ⟨.heap_invokable, .heap_invokable_ (some ⟨held_value_lvalue.value⟩)⟩
            | none => none)
      ∧ (∀ fuel, construct_fuel fuel held_value_lvalue = none)
      ∧ (∀ u, construct held_value_lvalue ≠ some u)
      ∧ (construct held_value_closure = some held_value_object
          ∧ held_value_object.operator_call 5 = .returned 12)
      ∧ (∀ (A R : Type) (x : argument A R) (args : A) (r : R),
          (∀ t, x.value ≠ .unique_function t) → x.value.call args = .returned r →
          ∃ u, construct x = some u
            ∧ (u.type_ = .std_function ∨ u.type_ = .heap_invokable)
            ∧ u.operator_call args = .returned r) := by
  refine ⟨rfl, by decide, by decide, ?_, ?_,
    fun u h => by simp [construct, construct_fuel_unique_function, held_value_lvalue] at h,
    ⟨held_value_object_eq, rfl⟩, ?_⟩
  · intro fuel
    rw [construct_fuel_eq]
    simp only [held_value_lvalue]
    cases construct_fuel fuel _ <;> rfl
  · intro fuel
    exact construct_fuel_unique_function fuel _ _ _
  · intro A R x args r hx h
    exact invoke_same_result x args r hx h

/-- C2: for every reachable `a` whose presence check is true, of either
storage kind, move construction of `b` from `a` succeeds; `b` is present and
invoking `b` with any arguments gives what invoking `a` gave before the move;
afterwards the presence check of `a` is false and invoking `a` fails with
`std::bad_function_call`. The moved-from `std::function` of a
lightweight-erased `a` is the one the library leaves, without target
(`moved_from_empty`). -/
theorem C2_move_construct (a : unique_function A R)
    (hr : Reachable (moved_from_empty A R) a) (hp : a.operator_bool = some true) :
    ∃ b a1, move_construct (moved_from_empty A R) a = some (b, a1)
      ∧ b.operator_bool = some true
      ∧ (∀ args, b.operator_call args = a.operator_call args)
      ∧ a1.operator_bool = some false
      ∧ ∀ args, a1.operator_call args = .bad_function_call := by
  rcases consistent_cases a (reachable_consistent _ a hr) with rfl | ⟨f, rfl⟩ | ⟨p, rfl⟩
  · simp [operator_bool] at hp
  · exact ⟨_, _, rfl, hp, fun _ => rfl, rfl, fun _ => rfl⟩
  · exact ⟨_, _, rfl, hp, fun _ => rfl, rfl, fun _ => rfl⟩

/-- C2, witnessed on the scenario of the spec: the closure `x -> x + 7`
invoked with `5` yields `12` before the move and, through `b`, after it, and
the source is then absent and fails when invoked. -/
theorem C2_move_construct_witness :
    Reachable (moved_from_empty Int Int) held_value_object
      ∧ held_value_object.operator_bool = some true
      ∧ held_value_object.operator_call 5 = .returned 12
      ∧ ∃ b a1, move_construct (moved_from_empty Int Int) held_value_object = some (b, a1)
          ∧ b.operator_call 5 = .returned 12
          ∧ a1.operator_bool = some false
          ∧ a1.operator_call 5 = .bad_function_call := by
  have hr : Reachable (moved_from_empty Int Int) held_value_object :=
    Reachable.construct held_value_closure _ held_value_object_eq
  obtain ⟨b, a1, hm, _, hb, hn, hc⟩ := C2_move_construct held_value_object hr rfl
  exact ⟨hr, rfl, rfl, b, a1, hm, by rw [hb 5]; rfl, hn, hc 5⟩

/-- C4: a default-constructed `unique_function`, and one constructed from the
null marker `nullptr`, has kind empty, its presence check returns false, and
invoking it with any arguments fails with `std::bad_function_call`. -/
theorem C4_empty_instance (A R : Type) :
    (default_ctor : unique_function A R).type_ = .empty
      ∧ construct (⟨.nullptr, false, .rvalue⟩ : argument A R) = some default_ctor
      ∧ (default_ctor : unique_function A R).operator_bool = some false
      ∧ ∀ args : A, (default_ctor : unique_function A R).operator_call args
          = .bad_function_call := by
  refine ⟨rfl, ?_, rfl, fun _ => rfl⟩
  rw [construct_eq]
  rfl

/-- C5, as stated, fails: the object constructed from a null function pointer
has kind lightweight-erased, not empty, and yet its presence check returns
false. -/
theorem C5_counterexample :
    construct null_function_pointer = some null_pointer_object
      ∧ null_pointer_object.type_ = .std_function
      ∧ null_pointer_object.type_ ≠ .empty
      ∧ null_pointer_object.operator_bool = some false :=
  ⟨null_pointer_object_eq, rfl, by decide, rfl⟩

/-- C5, amended: for every reachable `unique_function` the presence check
returns true if and only if its kind is lightweight-erased and the held
`std::function` has a target, or its kind is heap-erased and the held
allocation pointer is non-null. An instance built from a pointer to function
has kind lightweight-erased and reports present exactly when the pointer is
not null; one built from a `std::function` reports present exactly when that
has a target. -/
theorem C5_presence_check (mf : moved_from_policy A R) (u : unique_function A R)
    (hr : Reachable mf u) :
    (∃ b, u.operator_bool = some b
      ∧ (b = true ↔
          (∃ g, u.type_ = .std_function ∧ u.union_ = .std_function_ ⟨some g⟩)
            ∨ (∃ w, u.type_ = .heap_invokable ∧ u.union_ = .heap_invokable_ (some w))))
    ∧ (∀ (S : Nat) (q : Option (A → R)) (c : Bool) (cat : value_category),
        ∃ v, construct ⟨.function_pointer S q, c, cat⟩ = some v
          ∧ v.type_ = .std_function ∧ v.operator_bool = some q.isSome)
    ∧ (∀ (S : Nat) (t : Option (A → R)) (c : Bool) (cat : value_category),
        ∃ v, construct ⟨.std_function S t, c, cat⟩ = some v
          ∧ v.type_ = .std_function ∧ v.operator_bool = some t.isSome) := by
  refine ⟨?_, ?_, ?_⟩
  · rcases consistent_cases u (reachable_consistent mf u hr) with rfl | ⟨f, rfl⟩ | ⟨p, rfl⟩
    · exact ⟨false, rfl, by simp⟩
    · rcases f with ⟨t⟩
      cases t with
      | none => exact ⟨false, rfl, by simp⟩
      | some g => exact ⟨true, rfl, by simp⟩
    · cases p with
      | none => exact ⟨false, rfl, by simp⟩
      | some w => exact ⟨true, rfl, by simp⟩
  · intro S q c cat
    rw [construct_eq]
    exact ⟨_, rfl, rfl, rfl⟩
  · intro S t c cat
    rw [construct_eq]
    exact ⟨_, rfl, rfl, rfl⟩

/-- C5, witnessed on the object built from a null function pointer: its
presence check is decided and is false. -/
theorem C5_presence_check_witness :
    Reachable (moved_from_empty Int Int) null_pointer_object
      ∧ ∃ b, null_pointer_object.operator_bool = some b
          ∧ (b = true ↔
              (∃ g, null_pointer_object.type_ = .std_function
                  ∧ null_pointer_object.union_ = .std_function_ ⟨some g⟩)
                ∨ (∃ w, null_pointer_object.type_ = .heap_invokable
                  ∧ null_pointer_object.union_ = .heap_invokable_ (some w))) :=
  ⟨Reachable.construct null_function_pointer _ null_pointer_object_eq,
    (C5_presence_check (moved_from_empty Int Int) null_pointer_object
      (Reachable.construct null_function_pointer _ null_pointer_object_eq)).1⟩

/-- C6, as stated, fails: after move construction from the heap-erased
scenario object, with a library that leaves no target in a moved-from
`std::function`, the source still has kind heap-erased; it is not in the
default-constructed state. So it is after move assignment into a
default-constructed destination. -/
theorem C6_counterexample :
    Reachable (moved_from_empty Int Int) held_value_object
      ∧ move_construct (moved_from_empty Int Int) held_value_object
          = some (held_value_object, moved_from_heap_object)
      ∧ operator_assign (moved_from_empty Int Int) default_ctor held_value_object
          = some (held_value_object, moved_from_heap_object)
      ∧ moved_from_heap_object.type_ = .heap_invokable
      ∧ moved_from_heap_object.type_ ≠ .empty
      ∧ moved_from_heap_object.type_ ≠ (default_ctor : unique_function Int Int).type_ :=
  ⟨Reachable.construct held_value_closure _ held_value_object_eq, rfl, rfl, rfl,
    by decide, by decide⟩

/-- C6, amended: after a reachable `unique_function` has been moved from, by
move construction or by move assignment (same-kind or cross-kind) into a
reachable destination, its kind discriminant is the one it had before: the
move operations never write the kind of the source. A moved-from heap-erased
instance holds a null allocation pointer, a moved-from lightweight-erased
instance holds the moved-from `std::function`, and only a source that was
empty is left in the default-constructed state. -/
theorem C6_moved_from_kind (mf : moved_from_policy A R) (d s : unique_function A R)
    (hd : Reachable mf d) (hs : Reachable mf s) :
    (∃ b a, move_construct mf s = some (b, a)
      ∧ a.type_ = s.type_
      ∧ (s.type_ = .heap_invokable → a.union_ = .heap_invokable_ none)
      ∧ (∀ f, s.union_ = .std_function_ f → a.union_ = .std_function_ (mf f))
      ∧ (a = default_ctor ↔ s.type_ = .empty))
    ∧ (∃ d1 s1, operator_assign mf d s = some (d1, s1)
      ∧ s1.type_ = s.type_
      ∧ (s.type_ = .heap_invokable → s1.union_ = .heap_invokable_ none)
      ∧ (∀ f, s.union_ = .std_function_ f → s1.union_ = .std_function_ (mf f))
      ∧ (s1 = default_ctor ↔ s.type_ = .empty)) := by
  constructor
  · rcases consistent_cases s (reachable_consistent mf s hs) with rfl | ⟨g, rfl⟩ | ⟨q, rfl⟩ <;>
      refine ⟨_, _, rfl, rfl, ?_, ?_, ?_⟩ <;>
      simp [default_ctor]
  · rcases consistent_cases d (reachable_consistent mf d hd) with rfl | ⟨f, rfl⟩ | ⟨p, rfl⟩ <;>
      rcases consistent_cases s (reachable_consistent mf s hs) with rfl | ⟨g, rfl⟩ | ⟨q, rfl⟩ <;>
      refine ⟨_, _, rfl, rfl, ?_, ?_, ?_⟩ <;>
      simp [default_ctor]

/-- C6, witnessed on the scenario: the heap-erased scenario object, moved
from by construction or by assignment into the object built from a function
pointer, keeps kind heap-erased. -/
theorem C6_moved_from_kind_witness :
    Reachable (moved_from_empty Int Int) plus_seven_object
      ∧ Reachable (moved_from_empty Int Int) held_value_object
      ∧ (∃ b a, move_construct (moved_from_empty Int Int) held_value_object = some (b, a)
          ∧ a.type_ = .heap_invokable)
      ∧ (∃ d1 s1, operator_assign (moved_from_empty Int Int) plus_seven_object
            held_value_object = some (d1, s1)
          ∧ s1.type_ = .heap_invokable) := by
  have hd : Reachable (moved_from_empty Int Int) plus_seven_object :=
    Reachable.construct plus_seven_pointer _ plus_seven_object_eq
  have hs : Reachable (moved_from_empty Int Int) held_value_object :=
    Reachable.construct held_value_closure _ held_value_object_eq
  obtain ⟨⟨b, a, hm, ha, _⟩, ⟨d1, s1, hn, hs1, _⟩⟩ :=
    C6_moved_from_kind (moved_from_empty Int Int) plus_seven_object held_value_object hd hs
  exact ⟨hd, hs, ⟨b, a, hm, ha⟩, ⟨d1, s1, hn, hs1⟩⟩

/-- C7, evaluated on the code: a const lvalue `unique_function` of the same
signature selects the deleted copy constructor and is rejected, but a
non-const lvalue selects the generic constructor with `F` deduced as an
lvalue reference to `unique_function`; for this `F` exactly one `init`
overload is viable, the heap-erased one, so the source is accepted and boxed
through the heap-erased strategy. -/
theorem C7_lvalue_source (S : Nat) :
    select_constructor S (.unique_function S) true .lvalue = .deleted_copy
      ∧ select_constructor S (.unique_function S) false .lvalue
          = .generic (.lvalue_reference (.unique_function S))
      ∧ stored_type_t (decay_t (.lvalue_reference (.unique_function S))) = .heap_invokable
      ∧ init_heap_invokable_enabled (.lvalue_reference (.unique_function S)) = true
      ∧ init_overloads (.lvalue_reference (.unique_function S)) = 1 := by
  refine ⟨?_, ?_, ?_, ?_, ?_⟩ <;>
    simp [select_constructor, deduce_F, init_overloads, init_empty_enabled,
      init_std_function_enabled, init_heap_invokable_enabled, stored_type_t, decay_t,
      remove_reference_t, remove_pointer_t, is_same, is_std_function, is_function,
      is_reference_wrapper]

/-- C8: the kind chosen at construction is `stored_type_t` of the decayed
source type, a function of the type only. The null marker type gives empty; a
`std::function` of any signature, a plain function type, a (possibly const)
pointer-to-function type and a reference-wrapper type give lightweight-erased;
every other type gives heap-erased. Being the values of one function the
three cases exclude each other: at most one `init` overload is viable for any
deduced type, and exactly one for every decayed type. -/
theorem C8_storage_strategy :
    stored_type_t .nullptr_t = .empty
      ∧ (∀ S, stored_type_t (.std_function S) = .std_function)
      ∧ (∀ S, stored_type_t (.function S) = .std_function)
      ∧ (∀ S, stored_type_t (.pointer (.function S)) = .std_function
          ∧ stored_type_t (.const (.pointer (.function S))) = .std_function)
      ∧ (∀ T, stored_type_t (.reference_wrapper T) = .std_function)
      ∧ (∀ F, F ≠ .nullptr_t → (∀ S, F ≠ .std_function S) → (∀ S, F ≠ .function S) →
          (∀ S, F ≠ .pointer (.function S)) → (∀ S, F ≠ .const (.pointer (.function S))) →
          (∀ T, F ≠ .reference_wrapper T) → stored_type_t F = .heap_invokable)
      ∧ (∀ F, init_overloads F ≤ 1)
      ∧ (∀ F, decay_t F = F → init_overloads F = 1)
      ∧ (∀ (A R : Type) (x : argument A R) (u : unique_function A R),
          construct x = some u → u.type_ = stored_type_t (decay_t x.F)) := by
  refine ⟨rfl, fun _ => rfl, fun _ => rfl, fun _ => ⟨rfl, rfl⟩, fun _ => rfl, ?_,
    init_overloads_le_one, init_overloads_decayed, fun _ _ => construct_type⟩
  intro F h1 h2 h3 h4 h5 h6
  cases F with
  | nullptr_t => exact absurd rfl h1
  | function S => exact absurd rfl (h3 S)
  | std_function S => exact absurd rfl (h2 S)
  | reference_wrapper T => exact absurd rfl (h6 T)
  | unique_function S => rfl
  | class_type id => rfl
  | pointer T =>
    cases T with
    | function S => exact absurd rfl (h4 S)
    | _ => rfl
  | const T =>
    cases T with
    | pointer T1 =>
      cases T1 with
      | function S => exact absurd rfl (h5 S)
      | _ => rfl
    | _ => rfl
  | lvalue_reference T => rfl
  | rvalue_reference T => rfl

/-- C8, witnessed on a closure type, which is none of the listed types and
is decayed, and on the scenario object. -/
theorem C8_storage_strategy_witness :
    stored_type_t (.class_type 0) = .heap_invokable
      ∧ init_overloads (.class_type 0) = 1
      ∧ held_value_object.type_ = stored_type_t (decay_t held_value_closure.F) :=
  ⟨C8_storage_strategy.2.2.2.2.2.1 (.class_type 0) (by simp) (by simp) (by simp)
      (by simp) (by simp) (by simp),
    C8_storage_strategy.2.2.2.2.2.2.2.1 (.class_type 0) rfl,
    C8_storage_strategy.2.2.2.2.2.2.2.2 Int Int held_value_closure held_value_object
      held_value_object_eq⟩

/-- C9: for every function `g` of signature `int(int)`, the object built from
a pointer to `g` (lightweight-erased) and the object built from a closure
computing `g` (heap-erased) are both present and both return `g x` for every
input `x`. After move construction from each, the two new objects agree on
the presence check and on every result, and so do the two sources, both
absent and both failing with `std::bad_function_call`. The same holds after
move assignment of each into any reachable destination, and after move
assignment of any reachable source into each; move assignment to itself
leaves each as it was. The moved-from `std::function` is the one the library
leaves, without target (`moved_from_empty`). -/
theorem C9_strategies_agree (g : Int → Int) (S id : Nat) (c1 c2 : Bool)
    (cat1 cat2 : value_category) :
    ∃ u v, construct ⟨.function_pointer S (some g), c1, cat1⟩ = some u
      ∧ construct ⟨.closure id g, c2, cat2⟩ = some v
      ∧ u.type_ = .std_function ∧ v.type_ = .heap_invokable
      ∧ u.operator_bool = some true ∧ v.operator_bool = some true
      ∧ (∀ x, u.operator_call x = .returned (g x) ∧ v.operator_call x = .returned (g x))
      ∧ (∃ ub ua vb va, move_construct (moved_from_empty Int Int) u = some (ub, ua)
          ∧ move_construct (moved_from_empty Int Int) v = some (vb, va)
          ∧ ub.operator_bool = vb.operator_bool
          ∧ (∀ x, ub.operator_call x = vb.operator_call x)
          ∧ ua.operator_bool = va.operator_bool
          ∧ (∀ x, ua.operator_call x = va.operator_call x))
      ∧ (∀ d, Reachable (moved_from_empty Int Int) d →
          ∃ du su dv sv, operator_assign (moved_from_empty Int Int) d u = some (du, su)
            ∧ operator_assign (moved_from_empty Int Int) d v = some (dv, sv)
            ∧ du.operator_bool = dv.operator_bool
            ∧ (∀ x, du.operator_call x = dv.operator_call x)
            ∧ su.operator_bool = sv.operator_bool
            ∧ (∀ x, su.operator_call x = sv.operator_call x))
      ∧ (∀ s, Reachable (moved_from_empty Int Int) s →
          ∃ du su dv sv, operator_assign (moved_from_empty Int Int) u s = some (du, su)
            ∧ operator_assign (moved_from_empty Int Int) v s = some (dv, sv)
            ∧ du.operator_bool = dv.operator_bool
            ∧ (∀ x, du.operator_call x = dv.operator_call x)
            ∧ su.operator_bool = sv.operator_bool
            ∧ (∀ x, su.operator_call x = sv.operator_call x))
      ∧ operator_assign_self (moved_from_empty Int Int) u = some u
      ∧ operator_assign_self (moved_from_empty Int Int) v = some v := by
  refine ⟨⟨.std_function, .std_function_ ⟨some g⟩⟩,
    ⟨.heap_invokable, .heap_invokable_ (some ⟨.closure id g⟩)⟩, ?_, ?_, rfl, rfl, rfl, rfl,
    fun _ => ⟨rfl, rfl⟩, ?_, ?_, ?_, rfl, rfl⟩
  · rw [construct_eq]
    rfl
  · rw [construct_eq]
  · exact ⟨_, _, _, _, rfl, rfl, rfl, fun _ => rfl, rfl, fun _ => rfl⟩
  · intro d hd
    rcases consistent_cases d (reachable_consistent _ d hd) with rfl | ⟨f, rfl⟩ | ⟨p, rfl⟩ <;>
      exact ⟨_, _, _, _, rfl, rfl, rfl, fun _ => rfl, rfl, fun _ => rfl⟩
  · intro s hs
    rcases consistent_cases s (reachable_consistent _ s hs) with rfl | ⟨f, rfl⟩ | ⟨p, rfl⟩ <;>
      exact ⟨_, _, _, _, rfl, rfl, rfl, fun _ => rfl, rfl, fun _ => rfl⟩

/-- C9, witnessed on the two objects for `x -> x + 7`: they agree before the
move, and after it both the new objects and the two sources agree. -/
theorem C9_strategies_agree_witness :
    ∃ u v, construct plus_seven_pointer = some u
      ∧ construct held_value_closure = some v
      ∧ u.operator_call 5 = .returned 12 ∧ v.operator_call 5 = .returned 12
      ∧ ∃ ub ua vb va, move_construct (moved_from_empty Int Int) u = some (ub, ua)
          ∧ move_construct (moved_from_empty Int Int) v = some (vb, va)
          ∧ ub.operator_bool = vb.operator_bool
          ∧ ua.operator_bool = va.operator_bool := by
  obtain ⟨u, v, hu, hv, _, _, _, _, hc, ⟨ub, ua, vb, va, h1, h2, h3, _, h4, _⟩, _⟩ :=
    C9_strategies_agree (fun x => x + 7) 0 0 false false .rvalue .rvalue
  exact ⟨u, v, hu, hv, (hc 5).1, (hc 5).2, ub, ua, vb, va, h1, h2, h3, h4⟩

/-- C10, evaluated on the code: the type of a `unique_function` handed over as
a non-const lvalue selects the heap-erased strategy, but the construction
from it yields no object with a non-null allocation: the wrapper builds its
member `func_` from the same lvalue by the same constructor, so each level of
the construction waits for the next one and no amount of fuel makes it
return. For every source that is not itself a `unique_function` and whose
type selects the heap-erased strategy, the construction returns an object of
kind heap-erased with a non-null allocation, whose presence check is true
until it is moved from. -/
theorem C10_heap_source_not_built :
    stored_type_t (decay_t held_value_lvalue.F) = .heap_invokable
      ∧ select_constructor own_signature held_value_lvalue.value.type
          held_value_lvalue.is_const held_value_lvalue.category
          = .generic held_value_lvalue.F
      ∧ (∀ fuel, construct_fuel fuel held_value_lvalue = none)
      ∧ construct held_value_lvalue = none
      ∧ (∀ (A R : Type) (x : argument A R) (mf : moved_from_policy A R),
          (∀ t, x.value ≠ .unique_function t) →
          stored_type_t (decay_t x.F) = .heap_invokable →
          ∃ u, construct x = some u
            ∧ u.type_ = .heap_invokable
            ∧ u.union_ = .heap_invokable_ (some ⟨x.value⟩)
            ∧ u.operator_bool = some true
            ∧ ∃ b a, move_construct mf u = some (b, a)
                ∧ b.operator_bool = some true
                ∧ a.union_ = .heap_invokable_ none
                ∧ a.operator_bool = some false) := by
  refine ⟨by decide, by decide, fun fuel => construct_fuel_unique_function fuel _ _ _,
    construct_fuel_unique_function 1 _ _ _, ?_⟩
  intro A R x mf hx h
  exact heap_erased_present x hx h mf

/-- C11: for a latch constructed with a count `n >= 0` (a value of
`ptrdiff_t`) and a sequence of `count_down(k)` calls with `k >= 0` whose
running total never exceeds `n`, after every prefix of the calls the counter
is `n` minus the total decremented so far, `is_ready()` is true exactly when
that total is `n`, and once it is true it is true after every longer
prefix. -/
theorem C11_latch_counter (n : Int) (ks : List Int) (hn : 0 ≤ n)
    (hmax : n < 9223372036854775808) (hk : ∀ k ∈ ks, 0 ≤ k)
    (hrun : ∀ i, (ks.take i).sum ≤ n) (i : Nat) :
    ((latch.ctor n).count_down_all (ks.take i)).counter_ = n - (ks.take i).sum
      ∧ (((latch.ctor n).count_down_all (ks.take i)).is_ready = true ↔ (ks.take i).sum = n)
      ∧ ∀ j, i ≤ j → ((latch.ctor n).count_down_all (ks.take i)).is_ready = true →
          ((latch.ctor n).count_down_all (ks.take j)).is_ready = true := by
  have hc : ∀ m, ((latch.ctor n).count_down_all (ks.take m)).counter_ = n - (ks.take m).sum :=
    fun m => count_down_all_counter (ks.take m) n hmax
      (fun k hm => hk k (List.mem_of_mem_take hm)) (hrun m)
  have hr : ∀ m, ((latch.ctor n).count_down_all (ks.take m)).is_ready = true
      ↔ (ks.take m).sum = n := by
    intro m
    simp only [latch.is_ready, decide_eq_true_eq, hc m]
    omega
  refine ⟨hc i, hr i, ?_⟩
  intro j hij hi
  have h1 := (hr i).1 hi
  have h2 := sum_take_mono ks hk i j hij
  have h3 := hrun j
  have h4 := hn
  exact (hr j).2 (by omega)

/-- C11, witnessed on `latch(3)` with three `count_down(1)` calls: after two
of them the counter is `1` and the latch is not ready, after the third the
counter is `0` and the latch is ready, and it stays ready. -/
theorem C11_latch_counter_witness :
    (0 : Int) ≤ 3
      ∧ (∀ k ∈ three_decrements, 0 ≤ k)
      ∧ (∀ i, (three_decrements.take i).sum ≤ 3)
      ∧ ((latch.ctor 3).count_down_all (three_decrements.take 2)).counter_ = 1
      ∧ ((latch.ctor 3).count_down_all (three_decrements.take 2)).is_ready = false
      ∧ ((latch.ctor 3).count_down_all (three_decrements.take 3)).counter_ = 0
      ∧ ((latch.ctor 3).count_down_all (three_decrements.take 3)).is_ready = true
      ∧ ∀ j, 3 ≤ j → ((latch.ctor 3).count_down_all (three_decrements.take j)).is_ready
          = true := by
  have hk : ∀ k ∈ three_decrements, (0 : Int) ≤ k := by decide
  have hrun : ∀ i, (three_decrements.take i).sum ≤ 3 := by
    intro i
    rcases i with _ | _ | _ | _ | i <;> simp [three_decrements]
  have h2 := C11_latch_counter 3 three_decrements (by decide) (by decide) hk hrun 2
  have h3 := C11_latch_counter 3 three_decrements (by decide) (by decide) hk hrun 3
  refine ⟨by decide, hk, hrun, ?_, ?_, ?_, ?_, ?_⟩
  · rw [h2.1]; decide
  · cases hb : ((latch.ctor 3).count_down_all (three_decrements.take 2)).is_ready with
    | false => rfl
    | true => exact absurd (h2.2.1.1 hb) (by decide)
  · rw [h3.1]; decide
  · exact h3.2.1.2 (by decide)
  · intro j hj
    exact h3.2.2 j hj (h3.2.1.2 (by decide))

/-- C13: in every reachable state the presence check has an answer, and for
every argument the call fails with `std::bad_function_call` if and only if
that answer is false. When the answer is true the object holds a callable,
the target of the `std::function` or the callable inside the wrapper on the
heap, and every call returns what that callable returns. -/
theorem C13_bad_call_iff_absent (mf : moved_from_policy A R) (u : unique_function A R)
    (h : Reachable mf u) :
    ∃ b, u.operator_bool = some b
      ∧ (∀ args, u.operator_call args = .bad_function_call ↔ b = false)
      ∧ (b = true →
          (∃ g, u.union_ = .std_function_ ⟨some g⟩
              ∧ ∀ args, u.operator_call args = .returned (g args))
            ∨ (∃ id g, u.union_ = .heap_invokable_ (some ⟨.closure id g⟩)
              ∧ ∀ args, u.operator_call args = .returned (g args))) := by
  rcases reachable_shape mf u h with rfl | ⟨f, rfl⟩ | rfl | ⟨id, g, rfl⟩
  · exact ⟨false, rfl, fun _ => by simp [operator_call], by simp⟩
  · rcases f with ⟨t⟩
    cases t with
    | none =>
      exact ⟨false, rfl, fun _ => by simp [operator_call, std_function.invoke], by simp⟩
    | some g =>
      exact ⟨true, rfl, fun _ => by simp [operator_call, std_function.invoke],
        fun _ => Or.inl ⟨g, rfl, fun _ => rfl⟩⟩
  · exact ⟨false, rfl, fun _ => by simp [operator_call], by simp⟩
  · exact ⟨true, rfl,
      fun _ => by simp [operator_call, invokable_wrapper.invoke, detail.invoke, Source.call],
      fun _ => Or.inr ⟨id, g, rfl, fun _ => rfl⟩⟩

/-- C13, witnessed on the object built from a null function pointer, which is
absent and fails, and on the scenario object, which is present and returns. -/
theorem C13_bad_call_iff_absent_witness :
    Reachable (moved_from_empty Int Int) null_pointer_object
      ∧ (∃ b, null_pointer_object.operator_bool = some b
          ∧ (null_pointer_object.operator_call 5 = .bad_function_call ↔ b = false))
      ∧ null_pointer_object.operator_call 5 = .bad_function_call
      ∧ held_value_object.operator_bool = some true
      ∧ held_value_object.operator_call 5 = .returned 12 := by
  have hr : Reachable (moved_from_empty Int Int) null_pointer_object :=
    Reachable.construct null_function_pointer _ null_pointer_object_eq
  obtain ⟨b, hb, hiff, _⟩ :=
    C13_bad_call_iff_absent (moved_from_empty Int Int) null_pointer_object hr
  exact ⟨hr, ⟨b, hb, hiff 5⟩, rfl, rfl, rfl⟩

/-- C14: in every reachable state the kind discriminant names the live member
of the union: kind empty goes with no live member, kind lightweight-erased
with a live `std_function_`, kind heap-erased with a live `heap_invokable_`.
This holds again for the new object and the source of a move construction
and for the destination and the source of a move assignment from it or into
it. So `destroy_stored_object` always finds the member it destroys live,
leaves no live member behind, and once `operator=` has reset the kind to
empty a further call destroys nothing. -/
theorem C14_kind_matches_storage (mf : moved_from_policy A R) (u : unique_function A R)
    (h : Reachable mf u) :
    u.consistent = true
      ∧ (u.type_ = .empty ↔ u.union_ = .empty_)
      ∧ (u.type_ = .std_function ↔ ∃ f, u.union_ = .std_function_ f)
      ∧ (u.type_ = .heap_invokable ↔ ∃ p, u.union_ = .heap_invokable_ p)
      ∧ (∃ b a, move_construct mf u = some (b, a)
          ∧ b.consistent = true ∧ a.consistent = true)
      ∧ (∀ d, Reachable mf d →
          (∃ d1 s1, operator_assign mf d u = some (d1, s1)
            ∧ d1.consistent = true ∧ s1.consistent = true)
          ∧ (∃ d1 s1, operator_assign mf u d = some (d1, s1)
            ∧ d1.consistent = true ∧ s1.consistent = true))
      ∧ (∃ v, destroy_stored_object u = some v ∧ v.union_ = .empty_
          ∧ destroy_stored_object { v with type_ := .empty }
              = some { v with type_ := .empty }) := by
  have hc := reachable_consistent mf u h
  refine ⟨hc, ?_, ?_, ?_, move_construct_consistent mf u hc, ?_, ?_⟩
  · rcases consistent_cases u hc with rfl | ⟨f, rfl⟩ | ⟨p, rfl⟩ <;> simp
  · rcases consistent_cases u hc with rfl | ⟨f, rfl⟩ | ⟨p, rfl⟩ <;> simp
  · rcases consistent_cases u hc with rfl | ⟨f, rfl⟩ | ⟨p, rfl⟩ <;> simp
  · intro d hd
    have hdc := reachable_consistent mf d hd
    exact ⟨operator_assign_consistent mf d u hdc hc, operator_assign_consistent mf u d hc hdc⟩
  · rcases consistent_cases u hc with rfl | ⟨f, rfl⟩ | ⟨p, rfl⟩ <;> exact ⟨_, rfl, rfl, rfl⟩

/-- C14, witnessed on the scenario object and on the state a move leaves it
in. -/
theorem C14_kind_matches_storage_witness :
    Reachable (moved_from_kept Int Int) held_value_object
      ∧ held_value_object.consistent = true
      ∧ (∃ b a, move_construct (moved_from_kept Int Int) held_value_object = some (b, a)
          ∧ b.consistent = true ∧ a.consistent = true)
      ∧ moved_from_heap_object.consistent = true := by
  have hr : Reachable (moved_from_kept Int Int) held_value_object :=
    Reachable.construct held_value_closure _ held_value_object_eq
  have h := C14_kind_matches_storage (moved_from_kept Int Int) held_value_object hr
  exact ⟨hr, h.1, h.2.2.2.2.1, rfl⟩

/-- C15, evaluated on the code: the destructor releases nothing when the kind
is empty, the `std::function` member when the kind is lightweight-erased, and
nothing when the kind is heap-erased with a null pointer. When the kind is
heap-erased with a wrapper on the heap, the wrapper is deleted through a
pointer to `detail::invokable`, whose destructor is not virtual: the
behaviour is undefined, and the destructor of the wrapper, which would
destroy the callable, is not the one called. The scenario object of the spec
is such a case. With a virtual destructor in `detail::invokable` the callable
and then the allocation would be released. -/
theorem C15_destructor (A R : Type) :
    (default_ctor : unique_function A R).destructor = .released []
      ∧ (∀ f : std_function A R,
          destructor ⟨.std_function, .std_function_ f⟩ = .released [.container f])
      ∧ destructor (⟨.heap_invokable, .heap_invokable_ none⟩ : unique_function A R)
          = .released []
      ∧ (∀ w : invokable_wrapper A R,
          destructor ⟨.heap_invokable, .heap_invokable_ (some w)⟩ = .undefined)
      ∧ held_value_object.destructor = .undefined
      ∧ held_value_object.destructor
          ≠ .released [.callable held_value_closure.value, .allocation ⟨held_value_closure.value⟩]
      ∧ (∀ w : invokable_wrapper A R,
          default_delete true w = .released [.callable w.func_, .allocation w]) := by
  refine ⟨rfl, fun _ => rfl, rfl, fun _ => rfl, rfl, ?_, fun _ => rfl⟩
  intro h
  have h1 : held_value_object.destructor = .undefined := rfl
  rw [h1] at h
  cases h

/-- C16: a run of calls and presence checks on a reachable object, in any
number and order, ends in the state it started from, so the kind, the held
callable and the presence check are as before, and each use shows what it
shows on the initial state. When the presence check is true there is one
callable whose result every call returns. A call that fails with
`std::bad_function_call` leaves the state as it was. -/
theorem C16_use_leaves_state (mf : moved_from_policy A R) (u : unique_function A R)
    (h : Reachable mf u) (ops : List (observation A)) :
    (observe u ops).2 = u
      ∧ (observe u ops).2.type_ = u.type_
      ∧ (observe u ops).2.operator_bool = u.operator_bool
      ∧ (observe u ops).1 = ops.map (observed_on u)
      ∧ (u.operator_bool = some true →
          ∃ g : A → R, ∀ args,
            (observe u ops).2.operator_call args = .returned (g args)
              ∧ (u.call_step args).1 = .returned (g args))
      ∧ (∀ args, (u.call_step args).1 = .bad_function_call → (u.call_step args).2 = u)
      ∧ u.bool_step.2 = u := by
  have ho := observe_eq u ops
  have h2 : (observe u ops).2 = u := by rw [ho]
  refine ⟨h2, by rw [h2], by rw [h2], by rw [ho], ?_, ?_, rfl⟩
  · intro hp
    obtain ⟨g, hcall⟩ := present_returns mf u h hp
    exact ⟨g, fun args =>
      ⟨by rw [h2]; exact hcall args, by rw [call_step_eq]; exact hcall args⟩⟩
  · intro args _
    rw [call_step_eq]

/-- C16, witnessed on the scenario object: after two calls, a presence check
and a third call it is the same object, still present, and the calls
returned `12`, `8` and `12`. -/
theorem C16_use_leaves_state_witness :
    Reachable (moved_from_kept Int Int) held_value_object
      ∧ (observe held_value_object [.call 5, .call 1, .to_bool, .call 5]).2 = held_value_object
      ∧ (observe held_value_object [.call 5, .call 1, .to_bool, .call 5]).1
          = [.outcome (.returned 12), .outcome (.returned 8), .presence (some true),
              .outcome (.returned 12)] := by
  have hr : Reachable (moved_from_kept Int Int) held_value_object :=
    Reachable.construct held_value_closure _ held_value_object_eq
  have h := C16_use_leaves_state (moved_from_kept Int Int) held_value_object hr
    [.call 5, .call 1, .to_bool, .call 5]
  exact ⟨hr, h.1, by rw [h.2.2.2.1]; rfl⟩

end claims

end portable_concurrency
